import Mathlib

/-!
Shallow embedding of the LiveKit echo voice agent (src/main.py and
src/generate_token.py).

The agent keeps a live speech buffer fed by an energy-based frame
classifier (handle_audio), finalizes the buffer into a segment when a
periodic monitor observes more than SILENCE_THRESHOLD seconds of
silence (speech_monitor_loop), replays the segment after ECHO_DELAY
seconds (play_buffer), cancels a running playback when new speech
arrives, and emits a sine reminder tone after 20 seconds of inactivity
(silence_loop).

The asyncio concurrency is modelled as a deterministic interpreter over
an explicit list of interleaving events, one event per atomic code
section between awaits: a frame arriving at handle_audio, the monitor
loop waking from its 0.1 s sleep and running its check, the monitor
waking from the ECHO_DELAY sleep and creating the playback task, the
playback task emitting one frame, and the silence loop running its
check.  Times are exact rationals.  The state carries ghost logs (the
list of finalized segments and the ordered log of frames handed to the
outbound sink) that record the observable history of a run.
-/

/-- An audio frame: PCM int16 samples, sample rate, channel count and
samples per channel, mirroring the fields of rtc.AudioFrame that
main.py reads (frame.data, frame.sample_rate, frame.samples_per_channel). -/
structure AudioFrame where
  data : List ℤ
  sample_rate : ℕ
  num_channels : ℕ
  samples_per_channel : ℕ
deriving DecidableEq, Repr

/-- frame.samples_per_channel / frame.sample_rate (main.py line 150). -/
def frameDuration (f : AudioFrame) : ℚ :=
  (f.samples_per_channel : ℚ) / (f.sample_rate : ℚ)

/-- self.ENERGY_THRESHOLD = 500 (main.py line 62). -/
def ENERGY_THRESHOLD : ℕ := 500

/-- self.SILENCE_THRESHOLD = 1.0 seconds (main.py line 60). -/
def SILENCE_THRESHOLD : ℚ := 1

/-- self.ECHO_DELAY = 0.5 seconds (main.py line 61). -/
def ECHO_DELAY : ℚ := 1 / 2

/-- The literal 20-second inactivity bound tested by silence_loop
(main.py line 161). -/
def REMINDER_THRESHOLD : ℚ := 20

/-- The speech test of handle_audio (main.py lines 110-113):
energy = np.abs(pcm).mean() compared as energy > self.ENERGY_THRESHOLD.
For n > 0 samples the float comparison mean > 500 holds exactly when the
integer sum of absolute sample values exceeds 500 * n (the int16 sums are
far below the range where float64 rounding could flip a strict
comparison against a rational with small denominator).  For an empty
frame numpy yields NaN and NaN > 500 is False, matching the 0 < 0 case
here, so an empty frame classifies as silence without raising. -/
def isSpeech (f : AudioFrame) : Bool :=
  decide (ENERGY_THRESHOLD * f.data.length < (f.data.map Int.natAbs).sum)

/-- A value handed to the outbound sink (self.audio_source.capture_frame),
tagged with the playback run that produced it (play_buffer, main.py line
147) or marked as the reminder tone (play_reminder, main.py line 181). -/
inductive Emission where
  | playback (runId : ℕ) (f : AudioFrame)
  | reminder (f : AudioFrame)
deriving DecidableEq, Repr

/-- The constructor shape of an emission, used to describe the outbound
log without inspecting frame payloads. -/
inductive EmissionKind where
  | playback (runId : ℕ)
  | reminder
deriving DecidableEq, Repr

def emissionKind : Emission → EmissionKind
  | .playback r _ => .playback r
  | .reminder _ => .reminder

def isPlaybackEmission : Emission → Bool
  | .playback _ _ => true
  | .reminder _ => false

/-- The state of self.playback_task: the frames handed to play_buffer,
how many of them have been emitted so far, whether cancel() has been
requested, and a run identifier distinguishing successive tasks. -/
structure PlaybackTask where
  frames : List AudioFrame
  pos : ℕ
  cancelled : Bool
  runId : ℕ
deriving DecidableEq, Repr

/-- task.done(): the coroutine has been cancelled or has emitted every
frame of its buffer. -/
def PlaybackTask.done (task : PlaybackTask) : Bool :=
  task.cancelled || decide (task.frames.length ≤ task.pos)

/-- Where the single speech_monitor_loop task currently sits: in its
0.1 s polling sleep, or inside the await asyncio.sleep(ECHO_DELAY) that
follows a finalization (main.py line 137), holding the local
frames_to_play copy and the finalization time. -/
inductive MonitorStatus where
  | sleeping
  | waitingEcho (frames : List AudioFrame) (finalizedAt : ℚ)
deriving DecidableEq, Repr

/-- The mutable audio state of EchoVoiceAgent (main.py lines 53-57)
plus ghost observation logs: monitor records which await the monitor
loop is suspended at, finalized logs every snapshot taken by the
monitor, outbound logs every frame handed to the sink with its emission
time, and next_run_id numbers the playback tasks ever created. -/
@[ext]
structure EchoVoiceAgent where
  speech_buffer : List AudioFrame
  is_collecting : Bool
  playback_task : Option PlaybackTask
  last_speech_time : ℚ
  monitor : MonitorStatus
  finalized : List (List AudioFrame)
  outbound : List (ℚ × Emission)
  next_run_id : ℕ
deriving DecidableEq, Repr

/-- The audio state right after construction (main.py lines 53-57):
empty buffer, not collecting, no playback task, last_speech_time set to
the construction time. -/
def initState (t0 : ℚ) : EchoVoiceAgent :=
  { speech_buffer := []
    is_collecting := false
    playback_task := none
    last_speech_time := t0
    monitor := .sleeping
    finalized := []
    outbound := []
    next_run_id := 0 }

/-- One atomic section of one of the concurrent tasks, with the wall
clock time at which it runs. -/
inductive Event where
  | frame (f : AudioFrame) (t : ℚ)
  | monitorTick (t : ℚ)
  | monitorWake (t : ℚ)
  | playbackStep (t : ℚ)
  | reminderTick (t : ℚ)
deriving DecidableEq, Repr

def eventTime : Event → ℚ
  | .frame _ t => t
  | .monitorTick t => t
  | .monitorWake t => t
  | .playbackStep t => t
  | .reminderTick t => t

def isFrameEvent : Event → Bool
  | .frame _ _ => true
  | _ => false

def isMonitorTickEvent : Event → Bool
  | .monitorTick _ => true
  | _ => false

/-- Event timestamps are nondecreasing along the list. -/
def timesMonotone (es : List Event) : Prop :=
  List.Chain' (· ≤ ·) (es.map eventTime)

/-- One iteration of the async for loop of handle_audio (main.py lines
106-121): classify the frame; if it is speech, first cancel a playback
task that exists and is not done, then append the frame to the live
buffer, set is_collecting and stamp last_speech_time.  The whole body
runs without an await, hence as one atomic step. -/
def stepFrame (s : EchoVoiceAgent) (f : AudioFrame) (t : ℚ) : EchoVoiceAgent :=
  if isSpeech f then
    let s1 :=
      match s.playback_task with
      | some task =>
          if task.done then s
          else { s with playback_task := some { task with cancelled := true } }
      | none => s
    { s1 with speech_buffer := s1.speech_buffer ++ [f]
              is_collecting := true
              last_speech_time := t }
  else s

/-- The check a speech_monitor_loop iteration performs after its 0.1 s
sleep (main.py lines 127-136): if collecting, the buffer is non-empty
and more than SILENCE_THRESHOLD seconds have passed since the last
speech, snapshot the buffer, clear it, stop collecting and enter the
ECHO_DELAY sleep.  Snapshot, clear and flag update run with no await in
between, hence in one atomic step.  While the monitor sits in the
ECHO_DELAY sleep it performs no checks, so a tick there is a no-op. -/
def stepMonitorTick (s : EchoVoiceAgent) (t : ℚ) : EchoVoiceAgent :=
  match s.monitor with
  | .sleeping =>
      if s.is_collecting = true ∧ s.speech_buffer ≠ [] ∧
          SILENCE_THRESHOLD < t - s.last_speech_time then
        { s with monitor := .waitingEcho s.speech_buffer t
                 speech_buffer := []
                 is_collecting := false
                 finalized := s.finalized ++ [s.speech_buffer] }
      else s
  | .waitingEcho _ _ => s

/-- The monitor loop returning from await asyncio.sleep(ECHO_DELAY)
(main.py lines 137-142): if frames_to_play is non-empty, assign
self.playback_task = asyncio.create_task(self.play_buffer(frames_to_play)),
then resume the polling loop. -/
def stepMonitorWake (s : EchoVoiceAgent) : EchoVoiceAgent :=
  match s.monitor with
  | .sleeping => s
  | .waitingEcho frames _ =>
      if frames = [] then { s with monitor := .sleeping }
      else
        { s with monitor := .sleeping
                 playback_task := some ⟨frames, 0, false, s.next_run_id⟩
                 next_run_id := s.next_run_id + 1 }

/-- One iteration of the for loop in play_buffer (main.py lines
144-153): if the task has not been cancelled and frames remain, emit
the next frame to the sink and advance; cancellation delivered at an
await boundary stops the loop before any further emission, and a
finished or absent task does nothing. -/
def stepPlayback (s : EchoVoiceAgent) (t : ℚ) : EchoVoiceAgent :=
  match s.playback_task with
  | none => s
  | some task =>
      if task.cancelled then s
      else
        match task.frames.drop task.pos with
        | [] => s
        | f :: _ =>
            { s with playback_task := some { task with pos := task.pos + 1 }
                     outbound := s.outbound ++ [(t, .playback task.runId f)] }

/-- Number of tone samples: int(sample_rate * duration) =
int(48000 * 0.5) = 24000 (main.py line 171). -/
def REMINDER_SAMPLES : ℕ := 24000

/-- The frame built by play_reminder (main.py lines 166-179):
sample_rate 48000, duration 0.5 s, frequency 440 Hz, data =
(sin(2 * pi * 440 * t) * 32767).astype(int16) over 24000 sample points,
num_channels 1, samples_per_channel = len(tone).  The float sine sample
values are abstracted by the parameter sine, where sine i stands for
int16(sin(2 * pi * 440 * (i / 48000)) * 32767). -/
def reminderFrame (sine : ℕ → ℤ) : AudioFrame :=
  { data := (List.range REMINDER_SAMPLES).map sine
    sample_rate := 48000
    num_channels := 1
    samples_per_channel := REMINDER_SAMPLES }

/-- The check a silence_loop iteration performs after its 2 s sleep
(main.py lines 157-164): if not collecting and more than 20 seconds
have passed since the last speech, emit the reminder tone once and
reset last_speech_time to now. -/
def stepReminder (sine : ℕ → ℤ) (s : EchoVoiceAgent) (t : ℚ) : EchoVoiceAgent :=
  if s.is_collecting = false ∧ REMINDER_THRESHOLD < t - s.last_speech_time then
    { s with outbound := s.outbound ++ [(t, .reminder (reminderFrame sine))]
             last_speech_time := t }
  else s

def step (sine : ℕ → ℤ) (s : EchoVoiceAgent) (e : Event) : EchoVoiceAgent :=
  match e with
  | .frame f t => stepFrame s f t
  | .monitorTick t => stepMonitorTick s t
  | .monitorWake _ => stepMonitorWake s
  | .playbackStep t => stepPlayback s t
  | .reminderTick t => stepReminder sine s t

def runFrom (sine : ℕ → ℤ) (s : EchoVoiceAgent) (es : List Event) : EchoVoiceAgent :=
  es.foldl (step sine) s

/-- A whole execution: construction at time t0, then the interleaved
events. -/
def run (sine : ℕ → ℤ) (t0 : ℚ) (es : List Event) : EchoVoiceAgent :=
  runFrom sine (initState t0) es

/-- The frame arrival events for a list of (frame, arrival time) pairs. -/
def arrivalEvents (pairs : List (AudioFrame × ℚ)) : List Event :=
  pairs.map (fun p => Event.frame p.1 p.2)

/-- The sub-log of outbound emissions produced by playback run r. -/
def runEmissions (r : ℕ) (l : List (ℚ × Emission)) : List (ℚ × Emission) :=
  l.filter (fun p =>
    match p.2 with
    | .playback r2 _ => r2 == r
    | .reminder _ => false)

/-- Playback run r can never emit again: any task in the slot carrying
its id has been cancelled, and every task created later carries a
larger id. -/
def runsDead (r : ℕ) (s : EchoVoiceAgent) : Prop :=
  r < s.next_run_id ∧
    ∀ task, s.playback_task = some task → task.runId = r → task.cancelled = true

/-- Every playback task ever stored carries an id below next_run_id. -/
def WfRun (s : EchoVoiceAgent) : Prop :=
  ∀ task, s.playback_task = some task → task.runId < s.next_run_id

/-- The quiescent configuration an agent stays in while no frame ever
classifies as speech: empty buffer, idle, no monitor wait, no playback
task, nothing finalized, only reminder tones on the sink. -/
def QuietInv (s : EchoVoiceAgent) : Prop :=
  s.speech_buffer = [] ∧ s.is_collecting = false ∧
    s.monitor = MonitorStatus.sleeping ∧ s.playback_task = none ∧
    s.finalized = [] ∧ ∀ p ∈ s.outbound, isPlaybackEmission p.2 = false

/-- An action of the play_buffer coroutine body (main.py lines
146-151): hand a frame to the sink, or sleep for a duration. -/
inductive PlayAction where
  | emit (f : AudioFrame)
  | sleep (d : ℚ)
deriving DecidableEq, Repr

/-- The action trace of an uninterrupted play_buffer(frames) run
(main.py lines 144-153): for each frame in order, emit it, then sleep
for that frame's own duration. -/
def play_buffer : List AudioFrame → List PlayAction
  | [] => []
  | f :: rest => .emit f :: .sleep (frameDuration f) :: play_buffer rest

/-- The process environment read by the constructor (main.py lines
44-48): os.getenv results, absent variables being none. -/
structure Env where
  LIVEKIT_API_KEY : Option String
  LIVEKIT_API_SECRET : Option String
  LIVEKIT_SERVER_URL : Option String
  ROOM_NAME : Option String
  VOICE_AGENT_NAME : Option String
deriving DecidableEq, Repr

/-- Python truthiness of an os.getenv result as tested by
all([...]) (main.py line 50): None and the empty string are falsy. -/
def pyTruthy : Option String → Bool
  | none => false
  | some s => !s.isEmpty

def missingEnvMsg : String := "Missing environment variables"

def roomNameDefault : String := "Voice-agent"

def agentNameDefault : String := "Echo Agent"

/-- The fields EchoVoiceAgent.__init__ assigns on success (main.py
lines 43-62). -/
structure EchoVoiceAgentInit where
  api_key : Option String
  api_secret : Option String
  server_url : Option String
  room_name : String
  agent_name : String
  speech_buffer : List AudioFrame
  is_collecting : Bool
  playback_task : Option PlaybackTask
  last_speech_time : ℚ
  SILENCE_THRESHOLD : ℚ
  ECHO_DELAY : ℚ
  ENERGY_THRESHOLD : ℕ
deriving DecidableEq, Repr

/-- EchoVoiceAgent.__init__ (main.py lines 43-62): read the
environment, raise ValueError when any of the API key, API secret or
server URL is missing (falsy), otherwise initialize the audio state and
the tunable thresholds.  now is the value of time.time() at
construction. -/
def EchoVoiceAgent.construct (env : Env) (now : ℚ) :
    Except String EchoVoiceAgentInit :=
  if pyTruthy env.LIVEKIT_API_KEY && pyTruthy env.LIVEKIT_API_SECRET &&
      pyTruthy env.LIVEKIT_SERVER_URL then
    .ok { api_key := env.LIVEKIT_API_KEY
          api_secret := env.LIVEKIT_API_SECRET
          server_url := env.LIVEKIT_SERVER_URL
          room_name := env.ROOM_NAME.getD roomNameDefault
          agent_name := env.VOICE_AGENT_NAME.getD agentNameDefault
          speech_buffer := []
          is_collecting := false
          playback_task := none
          last_speech_time := now
          SILENCE_THRESHOLD := SILENCE_THRESHOLD
          ECHO_DELAY := ECHO_DELAY
          ENERGY_THRESHOLD := ENERGY_THRESHOLD }
  else .error missingEnvMsg

/-- A placeholder for the float sine table of the reminder tone, used
to instantiate concrete executions whose claims never inspect the tone
samples. -/
def sine0 : ℕ → ℤ := fun _ => 0

/-- A 10 ms frame whose mean absolute sample value 600 exceeds the
energy threshold 500: classified as speech. -/
def fLoud : AudioFrame :=
  { data := [600], sample_rate := 48000, num_channels := 1,
    samples_per_channel := 480 }

/-- A frame whose mean absolute sample value 100 is below the energy
threshold: classified as silence. -/
def fQuiet : AudioFrame :=
  { data := [100, -100], sample_rate := 48000, num_channels := 1,
    samples_per_channel := 2 }

/-- A frame with no samples at all. -/
def fEmpty : AudioFrame :=
  { data := [], sample_rate := 48000, num_channels := 1,
    samples_per_channel := 0 }

/-- A 10-second speech frame (480000 samples per channel at 48000 Hz). -/
def fBig : AudioFrame :=
  { data := [600], sample_rate := 48000, num_channels := 1,
    samples_per_channel := 480000 }

/-- Speech at t = 0, monitor check at t = 1.2 finalizes the segment
[fLoud] and enters the ECHO_DELAY sleep. -/
def exC1pre : List Event := [.frame fLoud 0, .monitorTick (6 / 5)]

/-- Continuation of exC1pre: new speech at t = 1.4, inside the
ECHO_DELAY wait (1.2, 1.7); the monitor wakes at t = 1.7 = 1.2 + 0.5
and playback emits at t = 1.8. -/
def exC1 : List Event :=
  exC1pre ++ [.frame fLoud (7 / 5), .monitorWake (17 / 10),
    .playbackStep (9 / 5)]

/-- Speech at t = 0, finalization at t = 1.5, playback task created at
t = 2 = 1.5 + ECHO_DELAY and not yet emitting. -/
def exC2pre : List Event :=
  [.frame fLoud 0, .monitorTick (3 / 2), .monitorWake 2]

/-- One speech frame at t = 0, a silent gap of exactly
SILENCE_THRESHOLD = 1.0 seconds, a monitor check landing exactly at the
end of the gap, new speech at t = 1.0, and a later monitor check. -/
def exC3 : List Event :=
  [.frame fLoud 0, .monitorTick 1, .frame fLoud 1, .monitorTick (5 / 2)]

/-- Only sub-threshold frames, a monitor check, and a reminder check
firing after 25 seconds of inactivity. -/
def exC6 : List Event :=
  [.frame fQuiet 0, .monitorTick 1, .reminderTick 25]

/-- Three 10-second speech frames arriving 0.1 s apart, finalized at
t = 1.5, played back from t = 2 with per-frame pacing of 10 s; the
silence loop check at t = 21 falls between the second and third
playback emissions. -/
def exC10 : List Event :=
  [.frame fBig 0, .frame fBig (1 / 10), .frame fBig (2 / 10),
   .monitorTick (3 / 2), .monitorWake 2, .playbackStep 2,
   .playbackStep 12, .reminderTick 21, .playbackStep 22]

/-- An environment with every variable missing. -/
def envMissing : Env := ⟨none, none, none, none, none⟩

def keyS : String := "key"

def secretS : String := "secret"

def urlS : String := "wss://example"

/-- An environment with the three required variables set. -/
def envFull : Env := ⟨some keyS, some secretS, some urlS, none, none⟩

/-- The agent EchoVoiceAgent.construct builds from envFull at time 0. -/
def agentDefault : EchoVoiceAgentInit :=
  { api_key := some keyS
    api_secret := some secretS
    server_url := some urlS
    room_name := roomNameDefault
    agent_name := agentNameDefault
    speech_buffer := []
    is_collecting := false
    playback_task := none
    last_speech_time := 0
    SILENCE_THRESHOLD := SILENCE_THRESHOLD
    ECHO_DELAY := ECHO_DELAY
    ENERGY_THRESHOLD := ENERGY_THRESHOLD }

/-!
Helper lemmas about single steps and runs.
-/

theorem runFrom_nil (sine : ℕ → ℤ) (s : EchoVoiceAgent) :
    runFrom sine s [] = s := rfl

theorem runFrom_cons (sine : ℕ → ℤ) (s : EchoVoiceAgent) (e : Event)
    (es : List Event) :
    runFrom sine s (e :: es) = runFrom sine (step sine s e) es := rfl

theorem runFrom_append (sine : ℕ → ℤ) (s : EchoVoiceAgent)
    (l1 l2 : List Event) :
    runFrom sine s (l1 ++ l2) = runFrom sine (runFrom sine s l1) l2 :=
  List.foldl_append _ _ _ _

/-- A frame arrival touches only the buffer, the collecting flag, the
activity clock and the cancellation bit of the playback task. -/
theorem stepFrame_fixed (s : EchoVoiceAgent) (f : AudioFrame) (t : ℚ) :
    (stepFrame s f t).monitor = s.monitor ∧
    (stepFrame s f t).finalized = s.finalized ∧
    (stepFrame s f t).outbound = s.outbound ∧
    (stepFrame s f t).next_run_id = s.next_run_id := by
  unfold stepFrame
  cases h : isSpeech f
  · simp
  · cases hp : s.playback_task
    · simp
    · rename_i task
      by_cases hd : task.done = true <;> simp [hd]

/-- The effect of a speech frame arriving while an unfinished playback
task exists (main.py lines 113-121): the task is cancelled and the
frame is appended, in the same atomic section. -/
theorem stepFrame_cancel (s : EchoVoiceAgent) (f : AudioFrame) (t : ℚ)
    (task : PlaybackTask) (hsp : isSpeech f = true)
    (hp : s.playback_task = some task) (hnd : task.done = false) :
    stepFrame s f t =
      { s with playback_task := some { task with cancelled := true }
               speech_buffer := s.speech_buffer ++ [f]
               is_collecting := true
               last_speech_time := t } := by
  unfold stepFrame
  rw [hsp, hp]
  simp [hnd]

/-- The effect of a speech frame arriving with no unfinished playback
task: the frame is appended and nothing is cancelled. -/
theorem stepFrame_speech_noTask (s : EchoVoiceAgent) (f : AudioFrame)
    (t : ℚ) (hsp : isSpeech f = true) (hp : s.playback_task = none) :
    stepFrame s f t =
      { s with speech_buffer := s.speech_buffer ++ [f]
               is_collecting := true
               last_speech_time := t } := by
  unfold stepFrame
  rw [hsp]
  simp [hp]

/-- A silent frame leaves the state unchanged. -/
theorem stepFrame_silent (s : EchoVoiceAgent) (f : AudioFrame) (t : ℚ)
    (hsp : isSpeech f = false) : stepFrame s f t = s := by
  unfold stepFrame
  rw [hsp]
  simp

theorem runEmissions_append (r : ℕ) (l1 l2 : List (ℚ × Emission)) :
    runEmissions r (l1 ++ l2) = runEmissions r l1 ++ runEmissions r l2 := by
  simp [runEmissions]

/-- The effect of a speech frame arriving while the playback task is
already done: no cancellation, the frame is appended. -/
theorem stepFrame_speech_doneTask (s : EchoVoiceAgent) (f : AudioFrame)
    (t : ℚ) (task : PlaybackTask) (hsp : isSpeech f = true)
    (hp : s.playback_task = some task) (hd : task.done = true) :
    stepFrame s f t =
      { s with speech_buffer := s.speech_buffer ++ [f]
               is_collecting := true
               last_speech_time := t } := by
  unfold stepFrame
  rw [hsp]
  simp [hp, hd]

/-- A monitor check while the monitor sits in the ECHO_DELAY sleep is
impossible, modelled as a no-op. -/
theorem stepMonitorTick_waiting (s : EchoVoiceAgent) (t : ℚ)
    (F : List AudioFrame) (tf : ℚ)
    (hm : s.monitor = MonitorStatus.waitingEcho F tf) :
    stepMonitorTick s t = s := by
  unfold stepMonitorTick
  rw [hm]

/-- A monitor check whose finalization condition fails does nothing. -/
theorem stepMonitorTick_noFire (s : EchoVoiceAgent) (t : ℚ)
    (hm : s.monitor = MonitorStatus.sleeping)
    (hg : ¬(s.is_collecting = true ∧ s.speech_buffer ≠ [] ∧
        SILENCE_THRESHOLD < t - s.last_speech_time)) :
    stepMonitorTick s t = s := by
  unfold stepMonitorTick
  rw [hm]
  simp only [if_neg hg]

/-- A monitor check whose finalization condition holds snapshots,
clears, stops collecting and enters the ECHO_DELAY wait in one step. -/
theorem stepMonitorTick_fire (s : EchoVoiceAgent) (t : ℚ)
    (hm : s.monitor = MonitorStatus.sleeping)
    (hg : s.is_collecting = true ∧ s.speech_buffer ≠ [] ∧
        SILENCE_THRESHOLD < t - s.last_speech_time) :
    stepMonitorTick s t =
      { s with monitor := MonitorStatus.waitingEcho s.speech_buffer t
               speech_buffer := []
               is_collecting := false
               finalized := s.finalized ++ [s.speech_buffer] } := by
  unfold stepMonitorTick
  rw [hm]
  simp only [if_pos hg]

theorem stepMonitorWake_sleeping (s : EchoVoiceAgent)
    (hm : s.monitor = MonitorStatus.sleeping) : stepMonitorWake s = s := by
  unfold stepMonitorWake
  rw [hm]

theorem stepMonitorWake_go (s : EchoVoiceAgent) (F : List AudioFrame)
    (tf : ℚ) (hm : s.monitor = MonitorStatus.waitingEcho F tf)
    (hF : F ≠ []) :
    stepMonitorWake s =
      { s with monitor := MonitorStatus.sleeping
               playback_task := some ⟨F, 0, false, s.next_run_id⟩
               next_run_id := s.next_run_id + 1 } := by
  unfold stepMonitorWake
  rw [hm]
  simp only [if_neg hF]

theorem stepMonitorWake_empty (s : EchoVoiceAgent) (tf : ℚ)
    (hm : s.monitor = MonitorStatus.waitingEcho [] tf) :
    stepMonitorWake s = { s with monitor := MonitorStatus.sleeping } := by
  unfold stepMonitorWake
  rw [hm]
  simp

theorem stepPlayback_none (s : EchoVoiceAgent) (t : ℚ)
    (hp : s.playback_task = none) : stepPlayback s t = s := by
  unfold stepPlayback
  rw [hp]

theorem stepPlayback_cancelled (s : EchoVoiceAgent) (t : ℚ)
    (task : PlaybackTask) (hp : s.playback_task = some task)
    (hc : task.cancelled = true) : stepPlayback s t = s := by
  unfold stepPlayback
  rw [hp]
  simp [hc]

theorem stepPlayback_exhausted (s : EchoVoiceAgent) (t : ℚ)
    (task : PlaybackTask) (hp : s.playback_task = some task)
    (hc : task.cancelled = false) (hd : task.frames.drop task.pos = []) :
    stepPlayback s t = s := by
  unfold stepPlayback
  rw [hp]
  simp [hc, hd]

theorem stepPlayback_emit (s : EchoVoiceAgent) (t : ℚ)
    (task : PlaybackTask) (f : AudioFrame) (rest : List AudioFrame)
    (hp : s.playback_task = some task) (hc : task.cancelled = false)
    (hd : task.frames.drop task.pos = f :: rest) :
    stepPlayback s t =
      { s with playback_task := some { task with pos := task.pos + 1 }
               outbound := s.outbound ++ [(t, .playback task.runId f)] } := by
  unfold stepPlayback
  rw [hp]
  simp [hc, hd]

theorem stepReminder_fire (sine : ℕ → ℤ) (s : EchoVoiceAgent) (t : ℚ)
    (hg : s.is_collecting = false ∧
        REMINDER_THRESHOLD < t - s.last_speech_time) :
    stepReminder sine s t =
      { s with outbound :=
                 s.outbound ++ [(t, .reminder (reminderFrame sine))]
               last_speech_time := t } := by
  unfold stepReminder
  simp only [if_pos hg]

theorem stepReminder_noFire (sine : ℕ → ℤ) (s : EchoVoiceAgent) (t : ℚ)
    (hg : ¬(s.is_collecting = false ∧
        REMINDER_THRESHOLD < t - s.last_speech_time)) :
    stepReminder sine s t = s := by
  unfold stepReminder
  simp only [if_neg hg]

/-- Once playback run r is dead -- its task cancelled, its id already
outnumbered -- no step revives it and no step adds an emission of run r
to the outbound log. -/
theorem step_runsDead (sine : ℕ → ℤ) (r : ℕ) (s : EchoVoiceAgent)
    (e : Event) (h : runsDead r s) :
    runsDead r (step sine s e) ∧
      runEmissions r (step sine s e).outbound = runEmissions r s.outbound := by
  obtain ⟨hlt, hcancel⟩ := h
  cases e with
  | frame f t =>
      simp only [step]
      cases hsp : isSpeech f
      · rw [stepFrame_silent s f t hsp]
        exact ⟨⟨hlt, hcancel⟩, rfl⟩
      · cases hp : s.playback_task with
        | none =>
            rw [stepFrame_speech_noTask s f t hsp hp]
            exact ⟨⟨hlt, fun task2 h2 hr => by
              rw [hp] at h2; exact absurd h2 (by simp)⟩, rfl⟩
        | some task =>
            by_cases hd : task.done = true
            · rw [stepFrame_speech_doneTask s f t task hsp hp hd]
              exact ⟨⟨hlt, hcancel⟩, rfl⟩
            · rw [stepFrame_cancel s f t task hsp hp (by simpa using hd)]
              refine ⟨⟨hlt, ?_⟩, rfl⟩
              intro task2 h2 hr
              simp only [Option.some.injEq] at h2
              subst h2
              rfl
  | monitorTick t =>
      simp only [step]
      cases hm : s.monitor with
      | sleeping =>
          by_cases hg : s.is_collecting = true ∧ s.speech_buffer ≠ [] ∧
              SILENCE_THRESHOLD < t - s.last_speech_time
          · rw [stepMonitorTick_fire s t hm hg]
            exact ⟨⟨hlt, hcancel⟩, rfl⟩
          · rw [stepMonitorTick_noFire s t hm hg]
            exact ⟨⟨hlt, hcancel⟩, rfl⟩
      | waitingEcho F tf =>
          rw [stepMonitorTick_waiting s t F tf hm]
          exact ⟨⟨hlt, hcancel⟩, rfl⟩
  | monitorWake t =>
      simp only [step]
      cases hm : s.monitor with
      | sleeping =>
          rw [stepMonitorWake_sleeping s hm]
          exact ⟨⟨hlt, hcancel⟩, rfl⟩
      | waitingEcho F tf =>
          by_cases hF : F = []
          · subst hF
            rw [stepMonitorWake_empty s tf hm]
            exact ⟨⟨hlt, hcancel⟩, rfl⟩
          · rw [stepMonitorWake_go s F tf hm hF]
            refine ⟨⟨Nat.lt_succ_of_lt hlt, ?_⟩, rfl⟩
            intro task2 h2 hr
            simp only [Option.some.injEq] at h2
            subst h2
            exact absurd hr.symm (Nat.ne_of_lt hlt)
  | playbackStep t =>
      simp only [step]
      cases hp : s.playback_task with
      | none =>
          rw [stepPlayback_none s t hp]
          exact ⟨⟨hlt, fun task2 h2 hr => by
            rw [hp] at h2; exact absurd h2 (by simp)⟩, rfl⟩
      | some task =>
          by_cases hc : task.cancelled = true
          · rw [stepPlayback_cancelled s t task hp hc]
            exact ⟨⟨hlt, hcancel⟩, rfl⟩
          · have hcf : task.cancelled = false := by simpa using hc
            cases hdrop : task.frames.drop task.pos with
            | nil =>
                rw [stepPlayback_exhausted s t task hp hcf hdrop]
                exact ⟨⟨hlt, hcancel⟩, rfl⟩
            | cons f rest =>
                have hne : task.runId ≠ r := by
                  intro hr
                  rw [hcancel task hp hr] at hcf
                  exact Bool.true_eq_false.mp hcf
                rw [stepPlayback_emit s t task f rest hp hcf hdrop]
                refine ⟨⟨hlt, ?_⟩, ?_⟩
                · intro task2 h2 hr
                  simp only [Option.some.injEq] at h2
                  subst h2
                  exact absurd hr hne
                · simp [runEmissions_append, runEmissions, hne]
  | reminderTick t =>
      simp only [step]
      by_cases hg : s.is_collecting = false ∧
          REMINDER_THRESHOLD < t - s.last_speech_time
      · rw [stepReminder_fire sine s t hg]
        exact ⟨⟨hlt, hcancel⟩, by simp [runEmissions_append, runEmissions]⟩
      · rw [stepReminder_noFire sine s t hg]
        exact ⟨⟨hlt, hcancel⟩, rfl⟩

/-- A dead playback run stays dead over any continuation, and the
outbound log never gains another emission of that run. -/
theorem runFrom_runsDead (sine : ℕ → ℤ) (r : ℕ) :
    ∀ (es : List Event) (s : EchoVoiceAgent), runsDead r s →
      runsDead r (runFrom sine s es) ∧
        runEmissions r (runFrom sine s es).outbound =
          runEmissions r s.outbound := by
  intro es
  induction es with
  | nil => exact fun s h => ⟨h, rfl⟩
  | cons e rest ih =>
      intro s h
      obtain ⟨h1, h2⟩ := step_runsDead sine r s e h
      obtain ⟨h3, h4⟩ := ih (step sine s e) h1
      exact ⟨h3, h4.trans h2⟩

/-- Every step preserves well-formed run numbering. -/
theorem step_WfRun (sine : ℕ → ℤ) (s : EchoVoiceAgent) (e : Event)
    (h : WfRun s) : WfRun (step sine s e) := by
  cases e with
  | frame f t =>
      simp only [step]
      cases hsp : isSpeech f
      · rw [stepFrame_silent s f t hsp]; exact h
      · cases hp : s.playback_task with
        | none =>
            rw [stepFrame_speech_noTask s f t hsp hp]
            intro task2 h2
            rw [hp] at h2
            exact absurd h2 (by simp)
        | some task =>
            by_cases hd : task.done = true
            · rw [stepFrame_speech_doneTask s f t task hsp hp hd]; exact h
            · rw [stepFrame_cancel s f t task hsp hp (by simpa using hd)]
              intro task2 h2
              simp only [Option.some.injEq] at h2
              subst h2
              exact h task hp
  | monitorTick t =>
      simp only [step]
      cases hm : s.monitor with
      | sleeping =>
          by_cases hg : s.is_collecting = true ∧ s.speech_buffer ≠ [] ∧
              SILENCE_THRESHOLD < t - s.last_speech_time
          · rw [stepMonitorTick_fire s t hm hg]; exact h
          · rw [stepMonitorTick_noFire s t hm hg]; exact h
      | waitingEcho F tf => rw [stepMonitorTick_waiting s t F tf hm]; exact h
  | monitorWake t =>
      simp only [step]
      cases hm : s.monitor with
      | sleeping => rw [stepMonitorWake_sleeping s hm]; exact h
      | waitingEcho F tf =>
          by_cases hF : F = []
          · subst hF
            rw [stepMonitorWake_empty s tf hm]
            exact h
          · rw [stepMonitorWake_go s F tf hm hF]
            intro task2 h2
            simp only [Option.some.injEq] at h2
            subst h2
            exact Nat.lt_succ_self _
  | playbackStep t =>
      simp only [step]
      cases hp : s.playback_task with
      | none => rw [stepPlayback_none s t hp]; exact h
      | some task =>
          by_cases hc : task.cancelled = true
          · rw [stepPlayback_cancelled s t task hp hc]; exact h
          · have hcf : task.cancelled = false := by simpa using hc
            cases hdrop : task.frames.drop task.pos with
            | nil => rw [stepPlayback_exhausted s t task hp hcf hdrop]; exact h
            | cons f rest =>
                rw [stepPlayback_emit s t task f rest hp hcf hdrop]
                intro task2 h2
                simp only [Option.some.injEq] at h2
                subst h2
                exact h task hp
  | reminderTick t =>
      simp only [step]
      by_cases hg : s.is_collecting = false ∧
          REMINDER_THRESHOLD < t - s.last_speech_time
      · rw [stepReminder_fire sine s t hg]; exact h
      · rw [stepReminder_noFire sine s t hg]; exact h

theorem runFrom_WfRun (sine : ℕ → ℤ) :
    ∀ (es : List Event) (s : EchoVoiceAgent), WfRun s →
      WfRun (runFrom sine s es) := by
  intro es
  induction es with
  | nil => exact fun s h => h
  | cons e rest ih => exact fun s h => ih _ (step_WfRun sine s e h)

theorem run_WfRun (sine : ℕ → ℤ) (t0 : ℚ) (es : List Event) :
    WfRun (run sine t0 es) :=
  runFrom_WfRun sine es (initState t0) (fun task h => by simp [initState] at h)

/-- While every arriving frame classifies as silence, the quiescent
configuration is preserved by every step. -/
theorem step_QuietInv (sine : ℕ → ℤ) (s : EchoVoiceAgent) (e : Event)
    (h : QuietInv s)
    (hf : ∀ f t, e = Event.frame f t → isSpeech f = false) :
    QuietInv (step sine s e) := by
  obtain ⟨hbuf, hcol, hmon, hpb, hfin, hout⟩ := h
  cases e with
  | frame f t =>
      simp only [step]
      rw [stepFrame_silent s f t (hf f t rfl)]
      exact ⟨hbuf, hcol, hmon, hpb, hfin, hout⟩
  | monitorTick t =>
      simp only [step]
      rw [stepMonitorTick_noFire s t hmon (by simp [hcol])]
      exact ⟨hbuf, hcol, hmon, hpb, hfin, hout⟩
  | monitorWake t =>
      simp only [step]
      rw [stepMonitorWake_sleeping s hmon]
      exact ⟨hbuf, hcol, hmon, hpb, hfin, hout⟩
  | playbackStep t =>
      simp only [step]
      rw [stepPlayback_none s t hpb]
      exact ⟨hbuf, hcol, hmon, hpb, hfin, hout⟩
  | reminderTick t =>
      simp only [step]
      by_cases hg : s.is_collecting = false ∧
          REMINDER_THRESHOLD < t - s.last_speech_time
      · rw [stepReminder_fire sine s t hg]
        refine ⟨hbuf, hcol, hmon, hpb, hfin, ?_⟩
        intro p hp2
        rcases List.mem_append.mp hp2 with hp3 | hp3
        · exact hout p hp3
        · simp only [List.mem_singleton] at hp3
          subst hp3
          rfl
      · rw [stepReminder_noFire sine s t hg]
        exact ⟨hbuf, hcol, hmon, hpb, hfin, hout⟩

theorem runFrom_QuietInv (sine : ℕ → ℤ) :
    ∀ (es : List Event) (s : EchoVoiceAgent), QuietInv s →
      (∀ f t, Event.frame f t ∈ es → isSpeech f = false) →
      QuietInv (runFrom sine s es) := by
  intro es
  induction es with
  | nil => exact fun s h _ => h
  | cons e rest ih =>
      intro s h hf
      exact ih (step sine s e)
        (step_QuietInv sine s e h (fun f t he => hf f t (he ▸ List.mem_cons_self e rest)))
        (fun f t hmem => hf f t (List.mem_cons_of_mem e hmem))

theorem initState_QuietInv (t0 : ℚ) : QuietInv (initState t0) := by
  refine ⟨rfl, rfl, rfl, rfl, rfl, ?_⟩
  intro p hp
  simp [initState] at hp

/-- The activity clock never drops below a bound once it is above it,
provided events run no earlier than the bound. -/
theorem step_last_ge (sine : ℕ → ℤ) (s : EchoVoiceAgent) (e : Event)
    (c : ℚ) (h : c ≤ s.last_speech_time) (he : c ≤ eventTime e) :
    c ≤ (step sine s e).last_speech_time := by
  cases e with
  | frame f t =>
      simp only [step]
      cases hsp : isSpeech f
      · rw [stepFrame_silent s f t hsp]; exact h
      · cases hp : s.playback_task with
        | none => rw [stepFrame_speech_noTask s f t hsp hp]; exact he
        | some task =>
            by_cases hd : task.done = true
            · rw [stepFrame_speech_doneTask s f t task hsp hp hd]; exact he
            · rw [stepFrame_cancel s f t task hsp hp (by simpa using hd)]
              exact he
  | monitorTick t =>
      simp only [step]
      cases hm : s.monitor with
      | sleeping =>
          by_cases hg : s.is_collecting = true ∧ s.speech_buffer ≠ [] ∧
              SILENCE_THRESHOLD < t - s.last_speech_time
          · rw [stepMonitorTick_fire s t hm hg]; exact h
          · rw [stepMonitorTick_noFire s t hm hg]; exact h
      | waitingEcho F tf => rw [stepMonitorTick_waiting s t F tf hm]; exact h
  | monitorWake t =>
      simp only [step]
      cases hm : s.monitor with
      | sleeping => rw [stepMonitorWake_sleeping s hm]; exact h
      | waitingEcho F tf =>
          by_cases hF : F = []
          · subst hF; rw [stepMonitorWake_empty s tf hm]; exact h
          · rw [stepMonitorWake_go s F tf hm hF]; exact h
  | playbackStep t =>
      simp only [step]
      cases hp : s.playback_task with
      | none => rw [stepPlayback_none s t hp]; exact h
      | some task =>
          by_cases hc : task.cancelled = true
          · rw [stepPlayback_cancelled s t task hp hc]; exact h
          · have hcf : task.cancelled = false := by simpa using hc
            cases hdrop : task.frames.drop task.pos with
            | nil => rw [stepPlayback_exhausted s t task hp hcf hdrop]; exact h
            | cons f rest =>
                rw [stepPlayback_emit s t task f rest hp hcf hdrop]; exact h
  | reminderTick t =>
      simp only [step]
      by_cases hg : s.is_collecting = false ∧
          REMINDER_THRESHOLD < t - s.last_speech_time
      · rw [stepReminder_fire sine s t hg]; exact he
      · rw [stepReminder_noFire sine s t hg]; exact h

theorem runFrom_last_ge (sine : ℕ → ℤ) :
    ∀ (es : List Event) (s : EchoVoiceAgent) (c : ℚ),
      c ≤ s.last_speech_time → (∀ e ∈ es, c ≤ eventTime e) →
      c ≤ (runFrom sine s es).last_speech_time := by
  intro es
  induction es with
  | nil => exact fun s c h _ => h
  | cons e rest ih =>
      intro s c h he
      exact ih (step sine s e) c
        (step_last_ge sine s e c h (he e (List.mem_cons_self e rest)))
        (fun e2 hmem => he e2 (List.mem_cons_of_mem e hmem))

/-- Running the arrival events of a non-empty all-speech frame sequence
from a state with no playback task appends exactly those frames to the
buffer in order, sets collecting, stamps the clock with the last
arrival time, and touches nothing else. -/
theorem runFrom_arrivals (sine : ℕ → ℤ) :
    ∀ (pairs : List (AudioFrame × ℚ)) (p : AudioFrame × ℚ)
      (s : EchoVoiceAgent), s.playback_task = none →
      (∀ q ∈ p :: pairs, isSpeech q.1 = true) →
      (runFrom sine s (arrivalEvents (p :: pairs))).speech_buffer
          = s.speech_buffer ++ (p :: pairs).map Prod.fst ∧
      (runFrom sine s (arrivalEvents (p :: pairs))).is_collecting = true ∧
      (runFrom sine s (arrivalEvents (p :: pairs))).last_speech_time
          = ((p :: pairs).getLast (List.cons_ne_nil p pairs)).2 ∧
      (runFrom sine s (arrivalEvents (p :: pairs))).playback_task = none ∧
      (runFrom sine s (arrivalEvents (p :: pairs))).monitor = s.monitor ∧
      (runFrom sine s (arrivalEvents (p :: pairs))).finalized = s.finalized ∧
      (runFrom sine s (arrivalEvents (p :: pairs))).outbound = s.outbound ∧
      (runFrom sine s (arrivalEvents (p :: pairs))).next_run_id
          = s.next_run_id := by
  intro pairs
  induction pairs with
  | nil =>
      intro p s hp hsp
      have h1 : arrivalEvents [p] = [Event.frame p.1 p.2] := rfl
      have h2 : runFrom sine s (arrivalEvents [p]) = stepFrame s p.1 p.2 := rfl
      rw [h2, stepFrame_speech_noTask s p.1 p.2
        (hsp p (List.mem_singleton.mpr rfl)) hp]
      simp [hp]
  | cons q rest ih =>
      intro p s hp hsp
      have h1 : arrivalEvents (p :: q :: rest)
          = Event.frame p.1 p.2 :: arrivalEvents (q :: rest) := rfl
      have hstep : step sine s (Event.frame p.1 p.2)
          = { s with speech_buffer := s.speech_buffer ++ [p.1]
                     is_collecting := true
                     last_speech_time := p.2 } := by
        simp only [step]
        exact stepFrame_speech_noTask s p.1 p.2
          (hsp p (List.mem_cons_self p (q :: rest))) hp
      rw [h1, runFrom_cons, hstep]
      obtain ⟨b1, b2, b3, b4, b5, b6, b7, b8⟩ := ih q
        { s with speech_buffer := s.speech_buffer ++ [p.1]
                 is_collecting := true
                 last_speech_time := p.2 }
        (by simp [hp])
        (fun r hr => hsp r (List.mem_cons_of_mem p hr))
      refine ⟨?_, b2, ?_, b4, b5, b6, b7, b8⟩
      · rw [b1]
        simp
      · rw [b3, List.getLast_cons (List.cons_ne_nil q rest)]

/-- Once a segment has been finalized and no further frame arrives, the
finalized log, the idle flag and the empty buffer persist. -/
theorem runFrom_afterFinal (sine : ℕ → ℤ) :
    ∀ (es : List Event) (s : EchoVoiceAgent),
      (∀ e ∈ es, isFrameEvent e = false) →
      s.is_collecting = false → s.speech_buffer = [] →
      (runFrom sine s es).finalized = s.finalized ∧
      (runFrom sine s es).is_collecting = false ∧
      (runFrom sine s es).speech_buffer = [] := by
  intro es
  induction es with
  | nil => exact fun s _ hc hb => ⟨rfl, hc, hb⟩
  | cons e rest ih =>
      intro s hf hc hb
      have hfr : ∀ e2 ∈ rest, isFrameEvent e2 = false :=
        fun e2 hmem => hf e2 (List.mem_cons_of_mem e hmem)
      cases e with
      | frame f t =>
          exact absurd (hf _ (List.mem_cons_self _ rest)) (by simp [isFrameEvent])
      | monitorTick t =>
          rw [runFrom_cons]
          have hstep : step sine s (Event.monitorTick t) = s := by
            simp only [step]
            cases hm : s.monitor with
            | sleeping =>
                exact stepMonitorTick_noFire s t hm (by simp [hc])
            | waitingEcho F tf => exact stepMonitorTick_waiting s t F tf hm
          rw [hstep]
          exact ih s hfr hc hb
      | monitorWake t =>
          rw [runFrom_cons]
          simp only [step]
          cases hm : s.monitor with
          | sleeping =>
              rw [stepMonitorWake_sleeping s hm]
              exact ih s hfr hc hb
          | waitingEcho F tf =>
              by_cases hF : F = []
              · subst hF
                rw [stepMonitorWake_empty s tf hm]
                exact ih _ hfr hc hb
              · rw [stepMonitorWake_go s F tf hm hF]
                exact ih _ hfr hc hb
      | playbackStep t =>
          rw [runFrom_cons]
          simp only [step]
          cases hp : s.playback_task with
          | none =>
              rw [stepPlayback_none s t hp]
              exact ih s hfr hc hb
          | some task =>
              by_cases hcc : task.cancelled = true
              · rw [stepPlayback_cancelled s t task hp hcc]
                exact ih s hfr hc hb
              · have hcf : task.cancelled = false := by simpa using hcc
                cases hdrop : task.frames.drop task.pos with
                | nil =>
                    rw [stepPlayback_exhausted s t task hp hcf hdrop]
                    exact ih s hfr hc hb
                | cons f2 rest2 =>
                    rw [stepPlayback_emit s t task f2 rest2 hp hcf hdrop]
                    exact ih _ hfr hc hb
      | reminderTick t =>
          rw [runFrom_cons]
          simp only [step]
          by_cases hg : s.is_collecting = false ∧
              REMINDER_THRESHOLD < t - s.last_speech_time
          · rw [stepReminder_fire sine s t hg]
            exact ih _ hfr hc hb
          · rw [stepReminder_noFire sine s t hg]
            exact ih s hfr hc hb

/-- From a collecting state with buffer B, a frame-free continuation
containing some monitor check later than SILENCE_THRESHOLD past the
activity clock finalizes exactly the segment B, once. -/
theorem runFrom_gap (sine : ℕ → ℤ) :
    ∀ (es : List Event) (s : EchoVoiceAgent),
      (∀ e ∈ es, isFrameEvent e = false) →
      s.is_collecting = true → s.speech_buffer ≠ [] →
      s.monitor = MonitorStatus.sleeping → s.playback_task = none →
      (∃ t, Event.monitorTick t ∈ es ∧
          SILENCE_THRESHOLD < t - s.last_speech_time) →
      (runFrom sine s es).finalized = s.finalized ++ [s.speech_buffer] := by
  intro es
  induction es with
  | nil =>
      intro s _ _ _ _ _ hex
      obtain ⟨t, hmem, _⟩ := hex
      exact absurd hmem (List.not_mem_nil _)
  | cons e rest ih =>
      intro s hf hc hb hm hp hex
      have hfr : ∀ e2 ∈ rest, isFrameEvent e2 = false :=
        fun e2 hmem => hf e2 (List.mem_cons_of_mem e hmem)
      cases e with
      | frame f t =>
          exact absurd (hf _ (List.mem_cons_self _ rest)) (by simp [isFrameEvent])
      | monitorTick t =>
          by_cases hT : SILENCE_THRESHOLD < t - s.last_speech_time
          · rw [runFrom_cons]
            have hstep : step sine s (Event.monitorTick t)
                = { s with monitor := MonitorStatus.waitingEcho s.speech_buffer t
                           speech_buffer := []
                           is_collecting := false
                           finalized := s.finalized ++ [s.speech_buffer] } := by
              simp only [step]
              exact stepMonitorTick_fire s t hm ⟨hc, hb, hT⟩
            rw [hstep]
            exact (runFrom_afterFinal sine rest _ hfr rfl rfl).1
          · rw [runFrom_cons]
            have hstep : step sine s (Event.monitorTick t) = s := by
              simp only [step]
              exact stepMonitorTick_noFire s t hm (by
                intro hg
                exact hT hg.2.2)
            rw [hstep]
            refine ih s hfr hc hb hm hp ?_
            obtain ⟨t2, hmem, ht2⟩ := hex
            rcases List.mem_cons.mp hmem with heq | hmem2
            · rw [Event.monitorTick.injEq] at heq
              subst heq
              exact absurd ht2 hT
            · exact ⟨t2, hmem2, ht2⟩
      | monitorWake t =>
          rw [runFrom_cons]
          have hstep : step sine s (Event.monitorWake t) = s := by
            simp only [step]
            exact stepMonitorWake_sleeping s hm
          rw [hstep]
          refine ih s hfr hc hb hm hp ?_
          obtain ⟨t2, hmem, ht2⟩ := hex
          rcases List.mem_cons.mp hmem with heq | hmem2
          · exact absurd heq (by simp)
          · exact ⟨t2, hmem2, ht2⟩
      | playbackStep t =>
          rw [runFrom_cons]
          have hstep : step sine s (Event.playbackStep t) = s := by
            simp only [step]
            exact stepPlayback_none s t hp
          rw [hstep]
          refine ih s hfr hc hb hm hp ?_
          obtain ⟨t2, hmem, ht2⟩ := hex
          rcases List.mem_cons.mp hmem with heq | hmem2
          · exact absurd heq (by simp)
          · exact ⟨t2, hmem2, ht2⟩
      | reminderTick t =>
          rw [runFrom_cons]
          have hstep : step sine s (Event.reminderTick t) = s := by
            simp only [step]
            exact stepReminder_noFire sine s t (by
              intro hg
              rw [hc] at hg
              exact absurd hg.1 (by simp))
          rw [hstep]
          refine ih s hfr hc hb hm hp ?_
          obtain ⟨t2, hmem, ht2⟩ := hex
          rcases List.mem_cons.mp hmem with heq | hmem2
          · exact absurd heq (by simp)
          · exact ⟨t2, hmem2, ht2⟩

/-!
Claim theorems.
-/

/-- C1, counterexample.  The claim states that a speech frame arriving
during the echoDelay wait cancels the pending playback before it starts,
discards the finalized segment, and prevents every frame of that segment
from reaching the outbound sink.  In the code the ECHO_DELAY sleep sits
inline in speech_monitor_loop and self.playback_task is only assigned
after that sleep, so the cancellation in handle_audio has no task to hit:
here a speech frame arrives at t = 1.4, strictly inside the wait
(1.2, 1.2 + ECHO_DELAY), yet the segment frame fLoud of the segment
[fLoud] finalized at t = 1.2 is still emitted to the sink at t = 1.8. -/
theorem C1_counterexample :
    (run sine0 0 exC1pre).monitor = MonitorStatus.waitingEcho [fLoud] (6 / 5) ∧
    isSpeech fLoud = true ∧
    (6 : ℚ) / 5 < 7 / 5 ∧ (7 : ℚ) / 5 < 6 / 5 + ECHO_DELAY ∧
    exC1 = exC1pre ++ [Event.frame fLoud (7 / 5), Event.monitorWake (17 / 10),
      Event.playbackStep (9 / 5)] ∧
    (run sine0 0 exC1).outbound = [((9 : ℚ) / 5, Emission.playback 0 fLoud)] := by
  refine ⟨?_, by decide, by norm_num, by norm_num [ECHO_DELAY], rfl, ?_⟩
  · norm_num [run, runFrom, step, stepFrame, stepMonitorTick, initState, isSpeech,
      fLoud, SILENCE_THRESHOLD, ENERGY_THRESHOLD, exC1pre, List.foldl]
  · norm_num [run, runFrom, step, stepFrame, stepMonitorTick, stepMonitorWake,
      stepPlayback, initState, isSpeech, fLoud, SILENCE_THRESHOLD, ENERGY_THRESHOLD,
      exC1, exC1pre, List.foldl, List.cons_ne_nil, PlaybackTask.done, List.drop]

/-- C1, amended.  A speech frame arriving during the echoDelay wait does
not cancel the pending playback and does not discard the finalized
segment: the frame handler leaves the monitor's pending frames_to_play
untouched (it can only cancel an already created playback task), and
when the delay elapses the segment is still handed in full to a fresh
playback task. -/
theorem C1_amended_theorem (sine : ℕ → ℤ) (s : EchoVoiceAgent)
    (f : AudioFrame) (t tw : ℚ) (F : List AudioFrame) (tf : ℚ)
    (hm : s.monitor = MonitorStatus.waitingEcho F tf) (hF : F ≠ []) :
    (step sine s (Event.frame f t)).monitor = MonitorStatus.waitingEcho F tf ∧
    (step sine (step sine s (Event.frame f t))
        (Event.monitorWake tw)).playback_task
      = some ⟨F, 0, false, s.next_run_id⟩ := by
  have h1 : (stepFrame s f t).monitor = s.monitor := (stepFrame_fixed s f t).1
  have h4 : (stepFrame s f t).next_run_id = s.next_run_id :=
    (stepFrame_fixed s f t).2.2.2
  constructor
  · show (stepFrame s f t).monitor = _
    rw [h1, hm]
  · show (stepMonitorWake (stepFrame s f t)).playback_task = _
    rw [stepMonitorWake_go (stepFrame s f t) F tf (by rw [h1, hm]) hF]
    simp [h4]

/-- C1, witness for the amended theorem, at the state of exC1pre where
the monitor holds the finalized segment [fLoud] in its ECHO_DELAY
sleep. -/
theorem C1_amended_witness :
    (step sine0 (run sine0 0 exC1pre) (Event.frame fLoud (7 / 5))).monitor
        = MonitorStatus.waitingEcho [fLoud] (6 / 5) ∧
    (step sine0 (step sine0 (run sine0 0 exC1pre) (Event.frame fLoud (7 / 5)))
        (Event.monitorWake (17 / 10))).playback_task
      = some ⟨[fLoud], 0, false, (run sine0 0 exC1pre).next_run_id⟩ :=
  C1_amended_theorem sine0 (run sine0 0 exC1pre) fLoud (7 / 5) (17 / 10)
    [fLoud] (6 / 5)
    (by norm_num [run, runFrom, step, stepFrame, stepMonitorTick, initState,
      isSpeech, fLoud, SILENCE_THRESHOLD, ENERGY_THRESHOLD, exC1pre, List.foldl])
    (by simp)

/-- C2.  When a speech frame arrives while a playback task exists and is
not done, the same atomic handler section cancels that task and appends
the frame to the live buffer (the code issues the cancel first, main.py
lines 115-119), and no emission of the cancelled run is ever added to
the outbound sink log afterwards, whatever events follow. -/
theorem C2_theorem (sine : ℕ → ℤ) (t0 t : ℚ) (es1 es2 : List Event)
    (f : AudioFrame) (task : PlaybackTask)
    (hsp : isSpeech f = true)
    (hp : (run sine t0 es1).playback_task = some task)
    (hnd : task.done = false) :
    (step sine (run sine t0 es1) (Event.frame f t)).playback_task
        = some { task with cancelled := true } ∧
    (step sine (run sine t0 es1) (Event.frame f t)).speech_buffer
        = (run sine t0 es1).speech_buffer ++ [f] ∧
    runEmissions task.runId
        (run sine t0 (es1 ++ Event.frame f t :: es2)).outbound
      = runEmissions task.runId (run sine t0 es1).outbound := by
  have hstep : step sine (run sine t0 es1) (Event.frame f t)
      = { run sine t0 es1 with
            playback_task := some { task with cancelled := true }
            speech_buffer := (run sine t0 es1).speech_buffer ++ [f]
            is_collecting := true
            last_speech_time := t } := by
    simp only [step]
    exact stepFrame_cancel _ f t task hsp hp hnd
  refine ⟨by rw [hstep], by rw [hstep], ?_⟩
  have hwf : WfRun (run sine t0 es1) := run_WfRun sine t0 es1
  have hdead : runsDead task.runId
      (step sine (run sine t0 es1) (Event.frame f t)) := by
    rw [hstep]
    refine ⟨hwf task hp, ?_⟩
    intro task2 h2 hr
    simp only [Option.some.injEq] at h2
    subst h2
    rfl
  have h3 : run sine t0 (es1 ++ Event.frame f t :: es2)
      = runFrom sine (step sine (run sine t0 es1) (Event.frame f t)) es2 := by
    unfold run
    rw [runFrom_append]
    rfl
  rw [h3, (runFrom_runsDead sine task.runId es2 _ hdead).2, hstep]

/-- C2, witness: after exC2pre a playback task for [fLoud] is active
and untouched; a speech frame at t = 3 cancels it, appends, and the
pending playbackStep at t = 3.5 adds no emission of run 0. -/
theorem C2_witness :
    (step sine0 (run sine0 0 exC2pre) (Event.frame fLoud 3)).playback_task
        = some { frames := [fLoud], pos := 0, cancelled := true, runId := 0 } ∧
    (step sine0 (run sine0 0 exC2pre) (Event.frame fLoud 3)).speech_buffer
        = (run sine0 0 exC2pre).speech_buffer ++ [fLoud] ∧
    runEmissions 0
        (run sine0 0 (exC2pre ++ Event.frame fLoud 3 ::
          [Event.playbackStep (7 / 2)])).outbound
      = runEmissions 0 (run sine0 0 exC2pre).outbound :=
  C2_theorem sine0 0 3 exC2pre [Event.playbackStep (7 / 2)] fLoud
    ⟨[fLoud], 0, false, 0⟩ (by decide)
    (by norm_num [run, runFrom, step, stepFrame, stepMonitorTick, stepMonitorWake,
      initState, isSpeech, fLoud, SILENCE_THRESHOLD, ENERGY_THRESHOLD, exC2pre,
      List.foldl, List.cons_ne_nil])
    (by decide)

/-- C3, counterexample.  The claim promises that N speech frames
followed by a silent gap of at least silenceThreshold seconds finalize
exactly one segment holding exactly those N frames.  The code tests the
strict inequality silence_duration > SILENCE_THRESHOLD at 0.1 s polling
points, so for the one-frame sequence [fLoud] at t = 0 followed by a
silent gap of exactly 1.0 = SILENCE_THRESHOLD seconds, the check landing
at the end of the gap does not finalize; the speech frame arriving at
t = 1.0 joins the old buffer and the single segment eventually finalized
is [fLoud, fLoud], not the claimed [fLoud]. -/
theorem C3_counterexample :
    isSpeech fLoud = true ∧
    SILENCE_THRESHOLD ≤ (1 : ℚ) - 0 ∧
    exC3 = [Event.frame fLoud 0, Event.monitorTick 1, Event.frame fLoud 1,
      Event.monitorTick (5 / 2)] ∧
    (run sine0 0 exC3).finalized = [[fLoud, fLoud]] ∧
    [[fLoud, fLoud]] ≠ [[fLoud]] := by
  refine ⟨by decide, by norm_num [SILENCE_THRESHOLD], rfl, ?_, by decide⟩
  norm_num [run, runFrom, step, stepFrame, stepMonitorTick, initState, isSpeech,
    fLoud, SILENCE_THRESHOLD, ENERGY_THRESHOLD, exC3, List.foldl, List.cons_ne_nil]

/-- C3, amended.  For a non-empty sequence of speech frames arriving
back to back, followed only by frame-free events among which some
monitor check runs strictly more than SILENCE_THRESHOLD seconds after
the last arrival, exactly one segment is finalized and it contains
exactly those frames in arrival order, none dropped, none duplicated. -/
theorem C3_amended_theorem (sine : ℕ → ℤ) (t0 : ℚ) (p : AudioFrame × ℚ)
    (pairs : List (AudioFrame × ℚ)) (es2 : List Event)
    (hsp : ∀ q ∈ p :: pairs, isSpeech q.1 = true)
    (hnf : ∀ e ∈ es2, isFrameEvent e = false)
    (hgap : ∃ t, Event.monitorTick t ∈ es2 ∧
        SILENCE_THRESHOLD <
          t - ((p :: pairs).getLast (List.cons_ne_nil p pairs)).2) :
    (run sine t0 (arrivalEvents (p :: pairs) ++ es2)).finalized
      = [(p :: pairs).map Prod.fst] := by
  obtain ⟨b1, b2, b3, b4, b5, b6, b7, b8⟩ :=
    runFrom_arrivals sine pairs p (initState t0) rfl hsp
  unfold run
  rw [runFrom_append]
  have hmid := runFrom_gap sine es2
    (runFrom sine (initState t0) (arrivalEvents (p :: pairs)))
    hnf b2 (by rw [b1]; simp [initState]) (by rw [b5]; rfl) b4
    (by rw [b3]; exact hgap)
  rw [hmid, b6, b1]
  simp [initState]

/-- C3, witness for the amended theorem: one speech frame at t = 0 and
a monitor check at t = 1.5 > SILENCE_THRESHOLD finalize exactly the
segment [fLoud]. -/
theorem C3_witness :
    (run sine0 0 (arrivalEvents [(fLoud, 0)] ++
      [Event.monitorTick (3 / 2)])).finalized = [[fLoud]] :=
  C3_amended_theorem sine0 0 (fLoud, 0) [] [Event.monitorTick (3 / 2)]
    (by
      intro q hq
      rw [List.mem_singleton.mp hq]
      decide)
    (by
      intro e he
      rw [List.mem_singleton.mp he]
      rfl)
    ⟨3 / 2, List.mem_singleton.mpr rfl, by norm_num [SILENCE_THRESHOLD]⟩

/-- Any event other than a monitor check leaves the finalized log
unchanged. -/
theorem step_finalized_const (sine : ℕ → ℤ) (s : EchoVoiceAgent)
    (e : Event) (hnt : isMonitorTickEvent e = false) :
    (step sine s e).finalized = s.finalized := by
  cases e with
  | frame f t => exact (stepFrame_fixed s f t).2.1
  | monitorTick t => simp [isMonitorTickEvent] at hnt
  | monitorWake t =>
      simp only [step]
      cases hm : s.monitor with
      | sleeping => rw [stepMonitorWake_sleeping s hm]
      | waitingEcho F tf =>
          by_cases hF : F = []
          · subst hF
            rw [stepMonitorWake_empty s tf hm]
          · rw [stepMonitorWake_go s F tf hm hF]
  | playbackStep t =>
      simp only [step]
      cases hp : s.playback_task with
      | none => rw [stepPlayback_none s t hp]
      | some task =>
          by_cases hc : task.cancelled = true
          · rw [stepPlayback_cancelled s t task hp hc]
          · have hcf : task.cancelled = false := by simpa using hc
            cases hdrop : task.frames.drop task.pos with
            | nil => rw [stepPlayback_exhausted s t task hp hcf hdrop]
            | cons f rest => rw [stepPlayback_emit s t task f rest hp hcf hdrop]
  | reminderTick t =>
      simp only [step]
      by_cases hg : s.is_collecting = false ∧
          REMINDER_THRESHOLD < t - s.last_speech_time
      · rw [stepReminder_fire sine s t hg]
      · rw [stepReminder_noFire sine s t hg]

/-- C4.  With the monitor in its polling sleep, a monitor check changes
the finalized log exactly when the state is collecting, the live buffer
is non-empty and more than SILENCE_THRESHOLD seconds have passed since
the activity clock; when that condition holds the whole finalization is
the single atomic step that snapshots the buffer, clears it and sets
the state to idle, so no frame is both in the snapshot and in the new
live buffer; and no event other than a monitor check ever changes the
finalized log. -/
theorem C4_theorem (sine : ℕ → ℤ) (s : EchoVoiceAgent) (t : ℚ) (e : Event)
    (hm : s.monitor = MonitorStatus.sleeping) :
    ((step sine s (Event.monitorTick t)).finalized ≠ s.finalized ↔
      (s.is_collecting = true ∧ s.speech_buffer ≠ [] ∧
        SILENCE_THRESHOLD < t - s.last_speech_time)) ∧
    (s.is_collecting = true → s.speech_buffer ≠ [] →
      SILENCE_THRESHOLD < t - s.last_speech_time →
      step sine s (Event.monitorTick t)
        = { s with monitor := MonitorStatus.waitingEcho s.speech_buffer t
                   speech_buffer := []
                   is_collecting := false
                   finalized := s.finalized ++ [s.speech_buffer] } ∧
      ∀ g ∈ s.speech_buffer,
        g ∉ (step sine s (Event.monitorTick t)).speech_buffer) ∧
    (isMonitorTickEvent e = false → (step sine s e).finalized = s.finalized) := by
  refine ⟨⟨?_, ?_⟩, ?_, fun hnt => step_finalized_const sine s e hnt⟩
  · intro hne
    by_cases hg : s.is_collecting = true ∧ s.speech_buffer ≠ [] ∧
        SILENCE_THRESHOLD < t - s.last_speech_time
    · exact hg
    · exfalso
      apply hne
      show (stepMonitorTick s t).finalized = s.finalized
      rw [stepMonitorTick_noFire s t hm hg]
  · intro hg
    show (stepMonitorTick s t).finalized ≠ s.finalized
    rw [stepMonitorTick_fire s t hm hg]
    intro heq
    have hlen := congrArg List.length heq
    simp at hlen
  · intro hc hb hT
    have hfire := stepMonitorTick_fire s t hm ⟨hc, hb, hT⟩
    refine ⟨by simp only [step]; exact hfire, ?_⟩
    intro g hg2
    show g ∉ (stepMonitorTick s t).speech_buffer
    rw [hfire]
    simp

/-- C4, witness: a collecting state with buffer [fLoud] and clock 0 is
finalized by the check at t = 2, and a silence-loop check at t = 9
leaves the finalized log alone. -/
theorem C4_witness :
    (step sine0 { initState 0 with
        speech_buffer := [fLoud]
        is_collecting := true } (Event.monitorTick 2)).finalized
      ≠ ({ initState 0 with
        speech_buffer := [fLoud]
        is_collecting := true } : EchoVoiceAgent).finalized ∧
    step sine0 { initState 0 with
        speech_buffer := [fLoud]
        is_collecting := true } (Event.monitorTick 2)
      = { ({ initState 0 with
            speech_buffer := [fLoud]
            is_collecting := true } : EchoVoiceAgent) with
          monitor := MonitorStatus.waitingEcho [fLoud] 2
          speech_buffer := []
          is_collecting := false
          finalized := [] ++ [[fLoud]] } ∧
    (step sine0 { initState 0 with
        speech_buffer := [fLoud]
        is_collecting := true } (Event.reminderTick 9)).finalized
      = ({ initState 0 with
        speech_buffer := [fLoud]
        is_collecting := true } : EchoVoiceAgent).finalized := by
  obtain ⟨h1, h2, h3⟩ := C4_theorem sine0
    { initState 0 with
      speech_buffer := [fLoud]
      is_collecting := true }
    2 (Event.reminderTick 9) rfl
  exact ⟨h1.mpr ⟨rfl, by simp, by norm_num [SILENCE_THRESHOLD, initState]⟩,
    (h2 rfl (by simp) (by norm_num [SILENCE_THRESHOLD, initState])).1,
    h3 rfl⟩

/-- C5.  An uninterrupted play_buffer run emits the segment's frames
one at a time in their original order, and right after emitting each
frame it sleeps for that frame's own duration
samples_per_channel / sample_rate before the next emission: the action
trace alternates emit and sleep pairwise, position 2i holding the i-th
frame's emission and position 2i + 1 the sleep of that same frame's
duration. -/
theorem C5_theorem (frames : List AudioFrame) (i : ℕ) :
    (play_buffer frames).length = 2 * frames.length ∧
    (play_buffer frames)[2 * i]? = (frames[i]?).map PlayAction.emit ∧
    (play_buffer frames)[2 * i + 1]?
      = (frames[i]?).map (fun f => PlayAction.sleep (frameDuration f)) := by
  induction frames generalizing i with
  | nil => simp [play_buffer]
  | cons f rest ih =>
      refine ⟨?_, ?_, ?_⟩
      · have hlen := (ih 0).1
        simp only [play_buffer, List.length_cons, hlen, List.length]
        ring
      · cases i with
        | zero => simp [play_buffer]
        | succ j =>
            have h2 : 2 * (j + 1) = 2 * j + 1 + 1 := by ring
            rw [h2]
            simp only [play_buffer, List.getElem?_cons_succ]
            exact (ih j).2.1
      · cases i with
        | zero => simp [play_buffer]
        | succ j =>
            have h2 : 2 * (j + 1) + 1 = 2 * j + 1 + 1 + 1 := by ring
            rw [h2]
            simp only [play_buffer, List.getElem?_cons_succ]
            exact (ih j).2.2

/-- C6.  If every frame that ever arrives classifies as silence
(mean absolute magnitude at most the energy threshold, the comparison
being strict), then at every point of the execution the live buffer is
still empty, nothing has been finalized, no playback task exists, and
the outbound sink has received no playback emission (at most reminder
tones). -/
theorem C6_theorem (sine : ℕ → ℤ) (t0 : ℚ) (es : List Event)
    (h : ∀ f t, Event.frame f t ∈ es → isSpeech f = false) (n : ℕ) :
    (run sine t0 (es.take n)).speech_buffer = [] ∧
    (run sine t0 (es.take n)).finalized = [] ∧
    (run sine t0 (es.take n)).playback_task = none ∧
    ∀ p ∈ (run sine t0 (es.take n)).outbound,
      isPlaybackEmission p.2 = false := by
  have hq := runFrom_QuietInv sine (es.take n) (initState t0)
    (initState_QuietInv t0)
    (fun f t hmem => h f t (List.take_subset n es hmem))
  exact ⟨hq.1, hq.2.2.2.2.1, hq.2.2.2.1, hq.2.2.2.2.2⟩

/-- C6, witness: a sub-threshold frame, a monitor check and a reminder
check firing at t = 25 leave the buffer empty, the finalized log empty,
no playback task, and only reminder emissions on the sink. -/
theorem C6_witness :
    (run sine0 0 (exC6.take 3)).speech_buffer = [] ∧
    (run sine0 0 (exC6.take 3)).finalized = [] ∧
    (run sine0 0 (exC6.take 3)).playback_task = none ∧
    ∀ p ∈ (run sine0 0 (exC6.take 3)).outbound,
      isPlaybackEmission p.2 = false :=
  C6_theorem sine0 0 exC6
    (by
      intro f t hmem
      simp only [exC6, List.mem_cons, List.not_mem_nil, or_false] at hmem
      rcases hmem with h1 | h1 | h1 <;> first
        | (rw [(Event.frame.injEq _ _ _ _).mp h1 |>.1]; decide)
        | exact absurd h1 (by simp))
    3

/-- C8.  Frame classification is a total function of the frame: an
empty frame or an all-zero frame classifies as silence, and handing
such a frame to the audio handler leaves the whole agent state exactly
unchanged -- nothing appended, no flag, no clock update. -/
theorem C8_theorem (sine : ℕ → ℤ) (s : EchoVoiceAgent) (f : AudioFrame)
    (t : ℚ) (h : f.data = [] ∨ ∀ x ∈ f.data, x = 0) :
    isSpeech f = false ∧ step sine s (Event.frame f t) = s := by
  have hsum : (f.data.map Int.natAbs).sum = 0 := by
    rcases h with h | h
    · rw [h]
      rfl
    · apply List.sum_eq_zero
      intro x hx
      obtain ⟨y, hy, hxy⟩ := List.mem_map.mp hx
      rw [← hxy, h y hy]
      rfl
  have hfalse : isSpeech f = false := by
    unfold isSpeech
    rw [hsum]
    simp
  exact ⟨hfalse, by simp only [step]; exact stepFrame_silent s f t hfalse⟩

/-- C8, witness: the empty frame classifies as silence and changes
nothing in the freshly constructed state. -/
theorem C8_witness :
    isSpeech fEmpty = false ∧
    step sine0 (initState 0) (Event.frame fEmpty 5) = initState 0 :=
  C8_theorem sine0 (initState 0) fEmpty 5 (Or.inl rfl)

/-- C7.  When the agent is not collecting and more than
REMINDER_THRESHOLD seconds have passed since the activity clock, the
silence-loop check emits exactly one reminder tone frame -- 24000
samples, i.e. 0.5 s at sample rate 48000 Hz, mono, with data the int16
sine table of the 440 Hz full-scale tone -- and resets the activity
clock to now; consequently any later reminder firing, over events that
run no earlier than now, lies strictly more than REMINDER_THRESHOLD
seconds in the future. -/
theorem C7_theorem (sine : ℕ → ℤ) (s : EchoVoiceAgent) (t tq : ℚ)
    (es : List Event)
    (h1 : s.is_collecting = false)
    (h2 : REMINDER_THRESHOLD < t - s.last_speech_time)
    (h3 : ∀ e ∈ es, t ≤ eventTime e)
    (h4 : REMINDER_THRESHOLD < tq -
      (runFrom sine (step sine s (Event.reminderTick t))
        es).last_speech_time) :
    step sine s (Event.reminderTick t)
      = { s with outbound :=
                   s.outbound ++ [(t, Emission.reminder (reminderFrame sine))]
                 last_speech_time := t } ∧
    (reminderFrame sine).sample_rate = 48000 ∧
    (reminderFrame sine).num_channels = 1 ∧
    (reminderFrame sine).samples_per_channel = 24000 ∧
    frameDuration (reminderFrame sine) = 1 / 2 ∧
    (reminderFrame sine).data = (List.range REMINDER_SAMPLES).map sine ∧
    REMINDER_THRESHOLD + t < tq := by
  have hfire := stepReminder_fire sine s t ⟨h1, h2⟩
  refine ⟨by simp only [step]; exact hfire, rfl, rfl, rfl, ?_,
    by simp only [reminderFrame], ?_⟩
  · norm_num [frameDuration, reminderFrame, REMINDER_SAMPLES]
  · have hge : t ≤ (runFrom sine (step sine s (Event.reminderTick t))
        es).last_speech_time := by
      apply runFrom_last_ge sine es _ t _ h3
      simp only [step]
      rw [hfire]
    linarith

/-- C7, witness: from the fresh state, the check at t = 21 fires, and a
hypothetical next firing at tq = 45 is indeed more than 20 seconds
later. -/
theorem C7_witness :
    step sine0 (initState 0) (Event.reminderTick 21)
      = { initState 0 with
          outbound := (initState 0).outbound ++
            [(21, Emission.reminder (reminderFrame sine0))]
          last_speech_time := 21 } ∧
    (reminderFrame sine0).sample_rate = 48000 ∧
    (reminderFrame sine0).num_channels = 1 ∧
    (reminderFrame sine0).samples_per_channel = 24000 ∧
    frameDuration (reminderFrame sine0) = 1 / 2 ∧
    (reminderFrame sine0).data = (List.range REMINDER_SAMPLES).map sine0 ∧
    REMINDER_THRESHOLD + 21 < 45 :=
  C7_theorem sine0 (initState 0) 21 45 [] rfl
    (by norm_num [REMINDER_THRESHOLD, initState])
    (by intro e he; exact absurd he (List.not_mem_nil e))
    (by
      rw [runFrom_nil]
      simp only [step]
      rw [stepReminder_fire sine0 (initState 0) 21
        ⟨rfl, by norm_num [REMINDER_THRESHOLD, initState]⟩]
      norm_num [REMINDER_THRESHOLD])

/-- C9.  Construction fails with the configuration ValueError whenever
the API key, the API secret or the server URL is missing from the
environment; a successful construction carries the documented default
thresholds -- energy threshold 500, silence threshold 1.0 s, echo delay
0.5 s -- along with the fresh audio state. -/
theorem C9_theorem (env : Env) (now : ℚ) :
    ((env.LIVEKIT_API_KEY = none ∨ env.LIVEKIT_API_SECRET = none ∨
        env.LIVEKIT_SERVER_URL = none) →
      EchoVoiceAgent.construct env now = Except.error missingEnvMsg) ∧
    (∀ a, EchoVoiceAgent.construct env now = Except.ok a →
      a.ENERGY_THRESHOLD = 500 ∧ a.SILENCE_THRESHOLD = 1 ∧
      a.ECHO_DELAY = 1 / 2 ∧ a.speech_buffer = [] ∧
      a.is_collecting = false ∧ a.playback_task = none ∧
      a.last_speech_time = now) := by
  constructor
  · intro h
    unfold EchoVoiceAgent.construct
    rcases h with h | h | h <;> rw [h] <;> simp [pyTruthy]
  · intro a ha
    unfold EchoVoiceAgent.construct at ha
    by_cases hc : (pyTruthy env.LIVEKIT_API_KEY &&
        pyTruthy env.LIVEKIT_API_SECRET &&
        pyTruthy env.LIVEKIT_SERVER_URL) = true
    · rw [if_pos hc] at ha
      rw [Except.ok.injEq] at ha
      subst ha
      exact ⟨rfl, rfl, rfl, rfl, rfl, rfl, rfl⟩
    · rw [if_neg hc] at ha
      exact absurd ha (by simp)

/-- C9, witness: the empty environment is rejected with the ValueError
message, and the full environment yields the default thresholds. -/
theorem C9_witness :
    EchoVoiceAgent.construct envMissing 0 = Except.error missingEnvMsg ∧
    (agentDefault.ENERGY_THRESHOLD = 500 ∧
      agentDefault.SILENCE_THRESHOLD = 1 ∧
      agentDefault.ECHO_DELAY = 1 / 2 ∧ agentDefault.speech_buffer = [] ∧
      agentDefault.is_collecting = false ∧
      agentDefault.playback_task = none ∧
      agentDefault.last_speech_time = 0) :=
  ⟨(C9_theorem envMissing 0).1 (Or.inl rfl),
   (C9_theorem envFull 0).2 agentDefault rfl⟩

/-- C10.  The silence-loop condition reads only the collecting flag and
the activity clock, never the playback state: in the execution exC10 --
with nondecreasing event times, playback emissions paced by the frames'
own 10-second durations, the playback starting exactly ECHO_DELAY after
finalization, and a segment of total duration 30 s exceeding
REMINDER_THRESHOLD minus SILENCE_THRESHOLD -- the reminder tone at
t = 21 reaches the outbound sink strictly between the second and third
frame of the still-running playback run 0. -/
theorem C10_theorem :
    timesMonotone exC10 ∧
    (run sine0 0 exC10).outbound.map (fun p => (p.1, emissionKind p.2))
      = [((2 : ℚ), EmissionKind.playback 0),
         ((12 : ℚ), EmissionKind.playback 0),
         ((21 : ℚ), EmissionKind.reminder),
         ((22 : ℚ), EmissionKind.playback 0)] ∧
    (run sine0 0 (exC10.take 7)).playback_task
      = some ⟨[fBig, fBig, fBig], 2, false, 0⟩ ∧
    PlaybackTask.done ⟨[fBig, fBig, fBig], 2, false, 0⟩ = false ∧
    (12 : ℚ) - 2 = frameDuration fBig ∧
    (22 : ℚ) - 12 = frameDuration fBig ∧
    (2 : ℚ) - 3 / 2 = ECHO_DELAY ∧
    REMINDER_THRESHOLD - SILENCE_THRESHOLD < 3 * frameDuration fBig := by
  refine ⟨?_, ?_, ?_, by decide, ?_, ?_, ?_, ?_⟩
  · norm_num [timesMonotone, exC10, eventTime, List.chain'_cons,
      List.chain'_singleton]
  · norm_num [run, runFrom, step, stepFrame, stepMonitorTick, stepMonitorWake,
      stepPlayback, stepReminder, initState, isSpeech, fBig, SILENCE_THRESHOLD,
      ENERGY_THRESHOLD, REMINDER_THRESHOLD, exC10, List.foldl, List.cons_ne_nil,
      PlaybackTask.done, List.drop, emissionKind]
  · norm_num [run, runFrom, step, stepFrame, stepMonitorTick, stepMonitorWake,
      stepPlayback, stepReminder, initState, isSpeech, fBig, SILENCE_THRESHOLD,
      ENERGY_THRESHOLD, REMINDER_THRESHOLD, exC10, List.foldl, List.cons_ne_nil,
      PlaybackTask.done, List.drop]
  · norm_num [frameDuration, fBig]
  · norm_num [frameDuration, fBig]
  · norm_num [ECHO_DELAY]
  · norm_num [frameDuration, fBig, REMINDER_THRESHOLD, SILENCE_THRESHOLD]
